import Mathlib

/-!
Shallow embedding of the live synchronization core of
`src/system/config_main/live_sync.py` (class `LiveSyncManager`):
the INI merge engine `_merge_ini_content`, the game presence probe
`_is_game_running`, the game-detection state machine `_check_game_state`,
the poll tick `_poll`, and `force_sync_now`.

Modelling conventions:
- text is `List Char`;
- Python floats from `time.time()` / `st_mtime` are `Nat` (only order,
  subtraction and zero-truthiness matter to the code);
- filesystem observations of a tick are passed in explicitly through
  `PollEnv`; the target file content seen by `_merge_ini_content` is
  `Option (List Char)`: `some` when the file exists and is readable,
  `none` when `target_path.exists()` is false or reading raises (the
  Python function collapses both into the same branches);
- Lean identifiers drop the single leading underscore of the Python
  method names.
-/

namespace LiveSync

/-- Whitespace as Python's `str.strip` family and the regex class `\s`
see it on the ASCII range: space, tab, newline, carriage return,
vertical tab, form feed (code points 32, 9, 10, 13, 11, 12). -/
def pyIsSpace (c : Char) : Bool :=
  c.toNat = 32 || c.toNat = 9 || c.toNat = 10 || c.toNat = 13 || c.toNat = 11 || c.toNat = 12

/-- ASCII lowercasing on code points, the comparison `re.IGNORECASE`
performs on the ASCII pattern `[Global]`. -/
def lowerNat (n : Nat) : Nat := if 65 ≤ n && n ≤ 90 then n + 32 else n

/-- Case-insensitive character comparison (ASCII). -/
def ciEq (c p : Char) : Bool := lowerNat c.toNat = lowerNat p.toNat

/-- Case-insensitively, the text (second argument) starts with the
pattern (first argument). -/
def ciStarts : List Char → List Char → Bool
  | [], _ => true
  | _ :: _, [] => false
  | p :: ps, c :: cs => ciEq c p && ciStarts ps cs

/-- The literal characters of the marker section header `[Global]`,
lowered; the brackets are escaped in the regex, the letters compare
case-insensitively. -/
def markerChars : List Char := ['[', 'g', 'l', 'o', 'b', 'a', 'l', ']']

/-- Whether the regex `^\s*\[Global\]` (`re.MULTILINE | re.IGNORECASE`)
matches at a position whose remaining input is `l`, assuming the
position is a line start: `\s*` greedily skips whitespace — backtracking
cannot produce another match, because the following pattern character
`[` is not whitespace — and the bracketed word must follow
case-insensitively. -/
def markerAt (l : List Char) : Bool := ciStarts markerChars (l.dropWhile pyIsSpace)

/-- The `re.search` of `_merge_ini_content`, expressed as a split at the
first match: positions are scanned left to right, and a position can
match only at a line start — position 0 or immediately after a `'\n'`
(`re.MULTILINE`). The result is `(text before the match, text from the
match on)`, that is `(content[:m.start()], content[m.start():])`; `none`
when the regex does not match. -/
def splitMarkerAux : List Char → Bool → Option (List Char × List Char)
  | [], atLineStart => if atLineStart && markerAt [] then some ([], []) else none
  | c :: rest, atLineStart =>
    if atLineStart && markerAt (c :: rest) then some ([], c :: rest)
    else (splitMarkerAux rest (decide (c = '\n'))).map fun p => (c :: p.1, p.2)

/-- Search over a whole document: the scan starts at position 0, which is
a line start. -/
def splitAtMarker (content : List Char) : Option (List Char × List Char) :=
  splitMarkerAux content true

/-- Python `str.lstrip()` (no arguments: strips whitespace). -/
def lstrip (l : List Char) : List Char := l.dropWhile pyIsSpace

/-- Python `str.rstrip()` (no arguments: strips whitespace). -/
def rstrip (l : List Char) : List Char := (l.reverse.dropWhile pyIsSpace).reverse

/-- Python `str.endswith("\n")`. -/
def endsWithNewline (l : List Char) : Bool := decide (l.getLast? = some '\n')

/-- `LiveSyncManager._merge_ini_content(source_content, target_path, *,
preserve_excluded)`. The branches follow the source line by line:
no `[Global]` in the source returns the target text (or `""` when the
target is absent or unreadable); otherwise `source_body` is the source
from the match on, an absent or unreadable target yields
`source_body.lstrip()`, a target with `[Global]` yields
`target_header.rstrip() + "\n" + source_body.lstrip()`, and a target
without it yields the target text, a separating `"\n"` unless the text
already ends with one, then `source_body.lstrip()`. The
`preserve_excluded` parameter is accepted but — exactly as in the
source — never consulted. -/
def merge_ini_content (source_content : List Char) (target : Option (List Char))
    (preserve_excluded : Bool) : List Char :=
  match splitAtMarker source_content with
  | none =>
    match target with
    | some t => t
    | none => []
  | some (_, source_body) =>
    match target with
    | none => lstrip source_body
    | some target_content =>
      match splitAtMarker target_content with
      | some (target_header, _) => rstrip target_header ++ '\n' :: lstrip source_body
      | none =>
        target_content ++ (if endsWithNewline target_content then [] else ['\n'])
          ++ lstrip source_body

/-- Module constant `GAME_PROCESS_NAME`. -/
def GAME_PROCESS_NAME : List Char := "ReadyOrNotSteam-Win64-Shipping.exe".toList

/-- Module constant `GAME_START_DELAY_SECONDS`. -/
def GAME_START_DELAY_SECONDS : Nat := 10

/-- Module constant `PRE_GAME_SYNC_ENABLED`. -/
def PRE_GAME_SYNC_ENABLED : Bool := true

/-- One entry of the OS process table as `psutil.process_iter(['name'])`
exposes it to `_is_game_running`: either the process name is readable,
or touching `proc.info` raises one of `NoSuchProcess`, `AccessDenied`,
`ZombieProcess` (caught and skipped by the loop body). -/
inductive ProcEntry where
  | ok (nm : List Char)
  | inaccessible
deriving DecidableEq

/-- `LiveSyncManager._is_game_running`. The argument is `some` the
process table when `import psutil` and the enumeration succeed, and
`none` when the import fails or the enumeration raises any error — both
`except` arms return `True` (fail open). With a table, the loop returns
`True` at the first process whose readable name equals
`GAME_PROCESS_NAME` and `False` when the loop finishes. -/
def is_game_running : Option (List ProcEntry) → Bool
  | none => true
  | some procs =>
    procs.any fun p =>
      match p with
      | .ok nm => decide (nm = GAME_PROCESS_NAME)
      | .inaccessible => false

/-- The mutable attributes of `LiveSyncManager` that `_check_game_state`
and `_poll` read and write (`self._last_mtime`, `self._inactive`, the
game-detection fields). -/
structure SyncState where
  last_mtime : Option Nat
  inactive : Bool
  game_running : Bool
  game_start_time : Option Nat
  sync_enabled_after_delay : Bool
  initial_check_done : Bool
deriving DecidableEq

/-- The state as `LiveSyncManager.__init__` leaves it. -/
def initState : SyncState :=
  { last_mtime := none
    inactive := true
    game_running := false
    game_start_time := none
    sync_enabled_after_delay := false
    initial_check_done := false }

/-- The part of `_check_game_state` after the initial-probe block
(source lines 177–214): the started / stopped transitions, the
not-running early return, and the grace-delay check. The test
`if self._game_start_time:` is Python truthiness: it is False both for
`None` and for the timestamp `0.0`, hence the explicit `gst ≠ 0`
guard; when it is False the function falls through to the final
`return False`. -/
def check_rest (s : SyncState) (game_running : Bool) (now : Nat) : SyncState × Bool :=
  if game_running && !s.game_running then
    ({ s with game_running := true, game_start_time := some now,
              sync_enabled_after_delay := false }, false)
  else if !game_running && s.game_running then
    ({ s with game_running := false, game_start_time := none,
              sync_enabled_after_delay := false }, false)
  else if !game_running then (s, false)
  else if !s.sync_enabled_after_delay then
    match s.game_start_time with
    | some gst =>
      if gst ≠ 0 then
        if GAME_START_DELAY_SECONDS ≤ now - gst then
          ({ s with sync_enabled_after_delay := true }, true)
        else (s, false)
      else (s, false)
    | none => (s, false)
  else (s, true)

/-- `LiveSyncManager._check_game_state`, with this tick's presence probe
result and `time.time()` passed in. On the first ever call the
initial-probe block marks the probe done and, if the game is already
running, arms sync immediately and returns `True`; otherwise execution
continues into `check_rest`. -/
def check_game_state (s : SyncState) (game_running : Bool) (now : Nat) : SyncState × Bool :=
  if !s.initial_check_done then
    let s1 := { s with initial_check_done := true }
    if game_running then
      ({ s1 with game_running := true, sync_enabled_after_delay := true }, true)
    else check_rest s1 game_running now
  else check_rest s game_running now

/-- What one poll tick observes of the world. `stat_mtime` is the value
`work.stat().st_mtime` would produce, `none` when `stat` raises
(`FileNotFoundError` in the main branch; any exception in the pause
branch — both set `self._last_mtime` from it the same way).
`writes_fail` records whether the `target.write_text` calls inside
`_sync_files` raise; those exceptions are caught per target and — as
the theorems below exploit — never reach any state update. -/
structure PollEnv where
  work_exists : Bool
  stat_mtime : Option Nat
  pause_exists : Bool
  game_running : Bool
  now : Nat
  writes_fail : Bool
deriving DecidableEq

/-- `LiveSyncManager._poll`, one tick. The second component is `none`
when the tick does not invoke `_sync_files` (so no target document is
written by it), and `some preserve_excluded` when it does —
`_sync_files` is the only call site that writes the three target
documents during polling. The branches mirror the source: missing
source; game gating (`pre_game_sync = PRE_GAME_SYNC_ENABLED and not
game_sync_allowed`); the `LiveSync.PAUSE` flag branch, which records the
current mtime without syncing and leaves the session non-idle; the
`stat` read; and the mtime comparison
`self._last_mtime is None or mtime > self._last_mtime`. -/
def poll (s : SyncState) (env : PollEnv) : SyncState × Option Bool :=
  if !env.work_exists then
    ({ s with inactive := true, last_mtime := none }, none)
  else
    let r := check_game_state s env.game_running env.now
    let s1 := r.1
    let game_sync_allowed := r.2
    let pre_game_sync := PRE_GAME_SYNC_ENABLED && !game_sync_allowed
    if !game_sync_allowed && !pre_game_sync then
      ({ s1 with inactive := true }, none)
    else if env.pause_exists then
      ({ s1 with last_mtime := env.stat_mtime, inactive := false }, none)
    else
      match env.stat_mtime with
      | none => ({ s1 with inactive := true, last_mtime := none }, none)
      | some mtime =>
        let trigger :=
          match s1.last_mtime with
          | none => true
          | some lm => decide (lm < mtime)
        if trigger then
          ({ s1 with last_mtime := some mtime, inactive := false }, some game_sync_allowed)
        else
          ({ s1 with inactive := false }, none)

/-- `LiveSyncManager.force_sync_now`. The body touches no `self`
attribute: it resolves the paths, returns early when the work file is
missing, otherwise creates the target directory and calls
`_sync_files(active, work, preserve_excluded=True)`; every exception is
swallowed. The second component reports the `_sync_files` invocation as
in `poll`. -/
def force_sync_now (s : SyncState) (env : PollEnv) : SyncState × Option Bool :=
  if env.work_exists then (s, some true) else (s, none)

/-- Iterated `_check_game_state` over a sequence of tick times with the
game present at each tick, collecting the returned
`game_sync_allowed` values. -/
def runTicks (s : SyncState) : List Nat → List Bool
  | [] => []
  | n :: rest =>
    let r := check_game_state s true n
    r.2 :: runTicks r.1 rest

/-- Proof-support characterization of the scan performed by
`splitMarkerAux`: `scanNoMatch h suf als` says that, scanning the text
`h ++ suf` across the positions inside `h` starting with line-start flag
`als`, no position matches the marker regex (each position is rejected
either because it is not a line start or because `markerAt` is false
there). -/
def scanNoMatch : List Char → List Char → Bool → Prop
  | [], _, _ => True
  | c :: p, suf, als =>
    (als = true → markerAt (c :: (p ++ suf)) = false) ∧
      scanNoMatch p suf (decide (c = '\n'))

/-! ### Character-level facts -/

theorem pyIsSpace_newline : pyIsSpace '\n' = true := by decide

theorem markerAt_nil : markerAt [] = false := by decide

theorem lowerNat_eq_91 {n : Nat} (h : lowerNat n = 91) : n = 91 := by
  unfold lowerNat at h
  split at h
  · next hc => simp only [Bool.and_eq_true, decide_eq_true_eq] at hc; omega
  · exact h

theorem toNat_91_of_ciEq_lbracket {c : Char} (h : ciEq c '[' = true) : c.toNat = 91 := by
  unfold ciEq at h
  rw [decide_eq_true_eq] at h
  have h91 : lowerNat ('['.toNat) = 91 := by decide
  rw [h91] at h
  exact lowerNat_eq_91 h

theorem pyIsSpace_of_toNat_91 {c : Char} (h : c.toNat = 91) : pyIsSpace c = false := by
  unfold pyIsSpace
  rw [h]
  decide

/-- A text that case-insensitively starts with `[Global]` starts with the
literal character `[` (code point 91), which is not whitespace. -/
theorem marker_text_shape {l : List Char} (h : ciStarts markerChars l = true) :
    ∃ c cs, l = c :: cs ∧ c.toNat = 91 := by
  cases l with
  | nil => exact absurd h (by decide)
  | cons c cs =>
    refine ⟨c, cs, rfl, ?_⟩
    simp only [markerChars, ciStarts, Bool.and_eq_true] at h
    exact toNat_91_of_ciEq_lbracket h.1

theorem dropWhile_self_idem (p : Char → Bool) (l : List Char) :
    (l.dropWhile p).dropWhile p = l.dropWhile p := by
  induction l with
  | nil => rfl
  | cons c cs ih =>
    rw [List.dropWhile_cons]
    split
    · exact ih
    · next hpc => exact List.dropWhile_cons_of_neg hpc

/-! ### Facts about `rstrip` -/

theorem rstrip_append_newline (l : List Char) : rstrip (l ++ ['\n']) = rstrip l := by
  unfold rstrip
  rw [List.reverse_append]
  simp only [List.reverse_cons, List.reverse_nil, List.nil_append, List.cons_append,
    List.dropWhile_cons_of_pos pyIsSpace_newline]

theorem rstrip_rstrip (l : List Char) : rstrip (rstrip l) = rstrip l := by
  unfold rstrip
  rw [List.reverse_reverse, dropWhile_self_idem]

theorem rstrip_decomp (l : List Char) :
    ∃ w, l = rstrip l ++ w ∧ ∀ c ∈ w, pyIsSpace c = true := by
  refine ⟨(l.reverse.takeWhile pyIsSpace).reverse, ?_, ?_⟩
  · calc l = l.reverse.reverse := (List.reverse_reverse l).symm
    _ = (l.reverse.takeWhile pyIsSpace ++ l.reverse.dropWhile pyIsSpace).reverse := by
        rw [List.takeWhile_append_dropWhile]
    _ = rstrip l ++ (l.reverse.takeWhile pyIsSpace).reverse := by
        rw [List.reverse_append]; rfl
  · intro c hc
    rw [List.mem_reverse] at hc
    exact List.mem_takeWhile_imp hc

theorem rstrip_getLast_not_space {l : List Char} {e : Char}
    (h : (rstrip l).getLast? = some e) : pyIsSpace e = false := by
  rw [rstrip, List.getLast?_reverse] at h
  have hd := List.head?_dropWhile_not pyIsSpace l.reverse
  rw [h] at hd
  exact hd

theorem getLast?_cons_of_getLast? {α : Type} {c e : α} {p : List α}
    (h : p.getLast? = some e) : (c :: p).getLast? = some e := by
  cases p with
  | nil => simp at h
  | cons b q => rw [List.getLast?_cons_cons]; exact h

/-! ### The regex scan of `splitMarkerAux`, characterized -/

theorem splitMarkerAux_cons_pos {c : Char} {rest : List Char} {als : Bool}
    (h : (als && markerAt (c :: rest)) = true) :
    splitMarkerAux (c :: rest) als = some ([], c :: rest) := by
  rw [splitMarkerAux, if_pos h]

theorem splitMarkerAux_cons_neg {c : Char} {rest : List Char} {als : Bool}
    (h : (als && markerAt (c :: rest)) = false) :
    splitMarkerAux (c :: rest) als =
      (splitMarkerAux rest (decide (c = '\n'))).map fun p => (c :: p.1, p.2) := by
  rw [splitMarkerAux, if_neg (by simp [h])]

/-- What a successful search tells us: the input splits as header ++
body, the marker regex matches at the start of the body, and no position
inside the header matched during the scan. -/
theorem splitMarkerAux_eq_some {l : List Char} :
    ∀ {als : Bool} {h b : List Char}, splitMarkerAux l als = some (h, b) →
      l = h ++ b ∧ markerAt b = true ∧ scanNoMatch h b als := by
  induction l with
  | nil =>
    intro als h b he
    rw [splitMarkerAux, markerAt_nil, Bool.and_false] at he
    simp at he
  | cons c rest ih =>
    intro als h b he
    by_cases hg : (als && markerAt (c :: rest)) = true
    · rw [splitMarkerAux_cons_pos hg] at he
      simp only [Option.some.injEq, Prod.mk.injEq] at he
      obtain ⟨rfl, rfl⟩ := he
      rw [Bool.and_eq_true] at hg
      exact ⟨rfl, hg.2, trivial⟩
    · rw [Bool.not_eq_true] at hg
      rw [splitMarkerAux_cons_neg hg, Option.map_eq_some'] at he
      obtain ⟨⟨h0, b0⟩, hrec, hfb⟩ := he
      simp only [Prod.mk.injEq] at hfb
      obtain ⟨rfl, rfl⟩ := hfb
      obtain ⟨e1, e2, e3⟩ := ih hrec
      refine ⟨by rw [List.cons_append, e1], e2, ?_, e3⟩
      intro hals
      rw [hals, Bool.true_and] at hg
      rw [← e1]
      exact hg

/-- Swapping what comes after a newline cannot create a marker match:
the pattern `[Global]` contains no character case-equal to a newline, so
a match that fails with one continuation also fails when the
continuation is replaced by a newline followed by anything. -/
theorem ciStarts_swap_after :
    ∀ (d pat X Z : List Char), (∀ p ∈ pat, ciEq '\n' p = false) →
      ciStarts pat (d ++ X) = false → ciStarts pat (d ++ '\n' :: Z) = false := by
  intro d
  induction d with
  | nil =>
    intro pat X Z hpat hfalse
    cases pat with
    | nil => simp [ciStarts] at hfalse
    | cons p ps =>
      rw [List.nil_append]
      show (ciEq '\n' p && ciStarts ps Z) = false
      rw [hpat p (List.mem_cons_self p ps), Bool.false_and]
  | cons c d2 ih =>
    intro pat X Z hpat hfalse
    cases pat with
    | nil => simp [ciStarts] at hfalse
    | cons p ps =>
      rw [List.cons_append] at hfalse ⊢
      show (ciEq c p && ciStarts ps (d2 ++ '\n' :: Z)) = false
      have hf2 : (ciEq c p && ciStarts ps (d2 ++ X)) = false := hfalse
      cases hce : ciEq c p with
      | false => rw [Bool.false_and]
      | true =>
        rw [hce, Bool.true_and] at hf2
        rw [Bool.true_and]
        exact ih ps X Z (fun q hq => hpat q (List.mem_cons_of_mem p hq)) hf2

/-- The same swap at the level of `markerAt`, for a position whose
remaining prefix part `d` ends in a non-whitespace character: the
whitespace skip of `^\s*` then stops inside `d`, and the marker pattern
cannot reach across the newline. -/
theorem markerAt_swap {d : List Char} {e : Char} {X : List Char} (Z : List Char)
    (hl : d.getLast? = some e) (he : pyIsSpace e = false)
    (hm : markerAt (d ++ X) = false) : markerAt (d ++ '\n' :: Z) = false := by
  have hdnn : d.dropWhile pyIsSpace ≠ [] := by
    intro hnil
    have hall := List.dropWhile_eq_nil_iff.mp hnil e (List.mem_of_getLast?_eq_some hl)
    rw [he] at hall
    exact absurd hall (by decide)
  have hie : (d.dropWhile pyIsSpace).isEmpty = false := by
    cases hdd : d.dropWhile pyIsSpace with
    | nil => exact absurd hdd hdnn
    | cons a as => rfl
  unfold markerAt at hm ⊢
  rw [List.dropWhile_append] at hm ⊢
  simp only [hie] at hm ⊢
  exact ciStarts_swap_after _ markerChars X Z (by decide) hm

theorem scanNoMatch_swap (Z : List Char) :
    ∀ (h : List Char) (X : List Char) (als : Bool),
      (∀ e, h.getLast? = some e → pyIsSpace e = false) →
      scanNoMatch h X als → scanNoMatch h ('\n' :: Z) als := by
  intro h
  induction h with
  | nil => intro X als _ _; trivial
  | cons c p ih =>
    intro X als hlast hsc
    obtain ⟨h1, h2⟩ := hsc
    refine ⟨?_, ih X (decide (c = '\n')) (fun e he => hlast e (getLast?_cons_of_getLast? he)) h2⟩
    intro hals
    obtain ⟨e, hge⟩ : ∃ e, (c :: p).getLast? = some e := by
      cases hgl : (c :: p).getLast? with
      | none => exact absurd (List.getLast?_eq_none_iff.mp hgl) (by simp)
      | some e => exact ⟨e, rfl⟩
    have hm := h1 hals
    rw [← List.cons_append] at hm ⊢
    exact markerAt_swap Z hge (hlast e hge) hm

theorem scanNoMatch_append :
    ∀ (x y suf : List Char) (als : Bool),
      scanNoMatch (x ++ y) suf als → scanNoMatch x (y ++ suf) als := by
  intro x
  induction x with
  | nil => intro y suf als _; trivial
  | cons c p ih =>
    intro y suf als hsc
    rw [List.cons_append] at hsc
    obtain ⟨h1, h2⟩ := hsc
    refine ⟨?_, ih y suf _ h2⟩
    intro hals
    have hm := h1 hals
    rwa [List.append_assoc] at hm

/-- Assembly: gluing a scan-clean chunk, a newline, and a text that the
marker pattern matches, the search finds the marker exactly after the
newline. -/
theorem splitMarkerAux_append_marker {sb : List Char}
    (hsb : ciStarts markerChars sb = true) :
    ∀ (h : List Char) (als : Bool),
      scanNoMatch h ('\n' :: sb) als →
      (h = [] → als = false) →
      (∀ e, h.getLast? = some e → pyIsSpace e = false) →
      splitMarkerAux (h ++ '\n' :: sb) als = some (h ++ ['\n'], sb) := by
  intro h
  induction h with
  | nil =>
    intro als _ hals _
    rw [hals rfl, List.nil_append]
    obtain ⟨c, cs, rfl, hc91⟩ := marker_text_shape hsb
    have hm : markerAt (c :: cs) = true := by
      unfold markerAt
      rw [List.dropWhile_cons_of_neg (by simp [pyIsSpace_of_toNat_91 hc91])]
      exact hsb
    rw [splitMarkerAux_cons_neg (by rw [Bool.false_and])]
    have hd : decide ('\n' = '\n') = true := by decide
    rw [hd, splitMarkerAux_cons_pos (by rw [Bool.true_and]; exact hm)]
    rfl
  | cons c p ih =>
    intro als hsc hnil hlast
    obtain ⟨h1, h2⟩ := hsc
    have hguard : (als && markerAt (c :: (p ++ '\n' :: sb))) = false := by
      cases als with
      | false => rw [Bool.false_and]
      | true => rw [Bool.true_and]; exact h1 rfl
    rw [List.cons_append, splitMarkerAux_cons_neg hguard]
    rw [ih (decide (c = '\n')) h2 ?pn ?pl]
    · rfl
    case pn =>
      intro hp
      subst hp
      have hcs : pyIsSpace c = false := hlast c (by simp)
      rw [decide_eq_false_iff_not]
      intro hc
      subst hc
      rw [pyIsSpace_newline] at hcs
      exact absurd hcs (by decide)
    case pl => exact fun e he => hlast e (getLast?_cons_of_getLast? he)

/-! ### Game-detection state machine: steady states -/

/-- Once the game is running, the initial probe is done and sync is
armed, every further tick with the game present returns `True` and
leaves the state unchanged. -/
theorem check_armed_steady {s : SyncState} (h1 : s.game_running = true)
    (h2 : s.sync_enabled_after_delay = true) (h3 : s.initial_check_done = true)
    (now : Nat) : check_game_state s true now = (s, true) := by
  unfold check_game_state check_rest
  simp [h1, h2, h3]

theorem runTicks_armed {s : SyncState} (h1 : s.game_running = true)
    (h2 : s.sync_enabled_after_delay = true) (h3 : s.initial_check_done = true) :
    ∀ ts : List Nat, runTicks s ts = ts.map fun _ => true := by
  intro ts
  induction ts with
  | nil => rfl
  | cons n rest ih =>
    simp only [runTicks, check_armed_steady h1 h2 h3 n, List.map_cons]
    exact congrArg _ ih

/-- In the waiting window after a (post-probe) game start at a nonzero
timestamp `t0`, each tick with the game present returns exactly the
value of `now - t0 ≥ GAME_START_DELAY_SECONDS`: `False` while the grace
delay is running, `True` from the arming tick on. -/
theorem runTicks_waiting {s : SyncState} {t0 : Nat}
    (h1 : s.game_running = true) (h2 : s.sync_enabled_after_delay = false)
    (h3 : s.initial_check_done = true) (h4 : s.game_start_time = some t0)
    (h5 : t0 ≠ 0) :
    ∀ ts : List Nat, ts.Pairwise (· ≤ ·) →
      runTicks s ts = ts.map fun n => decide (GAME_START_DELAY_SECONDS ≤ n - t0) := by
  intro ts
  induction ts with
  | nil => intro _; rfl
  | cons n rest ih =>
    intro hp
    rw [List.pairwise_cons] at hp
    obtain ⟨hle, hp2⟩ := hp
    by_cases hd : GAME_START_DELAY_SECONDS ≤ n - t0
    · have hc : check_game_state s true n = ({ s with sync_enabled_after_delay := true }, true) := by
        unfold check_game_state check_rest
        simp [h1, h2, h3, h4, h5, hd]
      simp only [runTicks, hc, List.map_cons, decide_eq_true hd]
      refine congrArg _ ?_
      rw [runTicks_armed (by simp [h1]) (by simp) (by simp [h3]) rest]
      refine (List.map_congr_left ?_).symm
      intro m hm
      exact decide_eq_true (le_trans hd (Nat.sub_le_sub_right (hle m hm) t0))
    · have hc : check_game_state s true n = (s, false) := by
        unfold check_game_state check_rest
        simp [h1, h2, h3, h4, h5, hd]
      simp only [runTicks, hc, List.map_cons]
      rw [ih hp2]
      refine congrArg₂ _ ?_ rfl
      simp [hd]

/-! ### Merge idempotence on marker-containing targets -/

/-- Helper form of idempotence: when both the source and the target
contain the marker, merging the merge result again reproduces it. -/
theorem merge_idem_aux {S T : List Char} {pe pe2 : Bool} {sh sb th tb : List Char}
    (hS2 : splitMarkerAux S true = some (sh, sb))
    (hT2 : splitMarkerAux T true = some (th, tb)) :
    merge_ini_content S (some (merge_ini_content S (some T) pe)) pe2
      = merge_ini_content S (some T) pe := by
  obtain ⟨hTeq, hmtb, hscan⟩ := splitMarkerAux_eq_some hT2
  obtain ⟨hSeq, hmsb, hscanS⟩ := splitMarkerAux_eq_some hS2
  have hlsb : ciStarts markerChars (lstrip sb) = true := hmsb
  have hR : merge_ini_content S (some T) pe = rstrip th ++ '\n' :: lstrip sb := by
    simp only [merge_ini_content, splitAtMarker, hS2, hT2]
  rw [hR]
  by_cases hre : rstrip th = []
  · rw [hre, List.nil_append]
    obtain ⟨c, cs, hcc, hc91⟩ := marker_text_shape hlsb
    have hm2 : markerAt ('\n' :: lstrip sb) = true := by
      unfold markerAt
      rw [List.dropWhile_cons_of_pos pyIsSpace_newline]
      show ciStarts markerChars ((List.dropWhile pyIsSpace sb).dropWhile pyIsSpace) = true
      rw [dropWhile_self_idem]
      exact hmsb
    have hsplit2 : splitMarkerAux ('\n' :: lstrip sb) true = some ([], '\n' :: lstrip sb) :=
      splitMarkerAux_cons_pos (by rw [Bool.true_and]; exact hm2)
    simp only [merge_ini_content, splitAtMarker, hS2, hsplit2]
    rfl
  · have hlast : ∀ e, (rstrip th).getLast? = some e → pyIsSpace e = false :=
      fun e he => rstrip_getLast_not_space he
    obtain ⟨w, hw, hwsp⟩ := rstrip_decomp th
    have hscan2 : scanNoMatch (rstrip th) (w ++ tb) true := by
      apply scanNoMatch_append
      rw [← hw]
      exact hscan
    have hscan3 : scanNoMatch (rstrip th) ('\n' :: lstrip sb) true :=
      scanNoMatch_swap (lstrip sb) (rstrip th) (w ++ tb) true hlast hscan2
    have hsplit2 : splitMarkerAux (rstrip th ++ '\n' :: lstrip sb) true
        = some (rstrip th ++ ['\n'], lstrip sb) :=
      splitMarkerAux_append_marker hlsb (rstrip th) true hscan3
        (fun hh => absurd hh hre) hlast
    simp only [merge_ini_content, splitAtMarker, hS2, hsplit2]
    rw [rstrip_append_newline, rstrip_rstrip]

/-- Every branch of `check_rest` assigns only game-detection fields,
never `self._last_mtime`. -/
theorem check_rest_preserves_last_mtime (s : SyncState) (gr : Bool) (now : Nat) :
    (check_rest s gr now).1.last_mtime = s.last_mtime := by
  unfold check_rest
  repeat' split
  all_goals rfl

/-- The game-detection check never touches `self._last_mtime`: every
branch of `_check_game_state` assigns only game-detection fields. -/
theorem check_game_state_preserves_last_mtime (s : SyncState) (gr : Bool) (now : Nat) :
    (check_game_state s gr now).1.last_mtime = s.last_mtime := by
  unfold check_game_state
  split
  · split
    · rfl
    · rw [check_rest_preserves_last_mtime]
  · exact check_rest_preserves_last_mtime s gr now

/-! ## The claims -/

/-- Claim C1, counterexample: with source `"[Global]\nnew"` and target
`"A \n[Global]\nold"` — whose region before the marker line is the three
characters `"A \n"` — the merge result does not even start with those
three characters (it starts `"A\n["`): the trailing space of the header
is deleted, so the preserved header region is not reproduced verbatim. -/
theorem merge_header_not_verbatim_cex :
    splitAtMarker ("A \n[Global]\nold".toList)
        = some ("A \n".toList, "[Global]\nold".toList) ∧
    (merge_ini_content ("[Global]\nnew".toList) (some ("A \n[Global]\nold".toList)) true).take 3
      ≠ "A \n".toList := by
  decide

/-- Claim C1 (amended): for a source and a target that both contain the
marker, the merge emits `rstrip(target header) + "\n"` before the source
body; the target's header region is therefore reproduced verbatim
exactly when its trailing whitespace is a single terminating newline
(the normal INI layout), and is whitespace-normalized otherwise. -/
theorem merge_preserves_clean_header (S T th tb sh sb : List Char) (pe : Bool)
    (hS : splitAtMarker S = some (sh, sb))
    (hT : splitAtMarker T = some (th ++ ['\n'], tb))
    (hclean : rstrip th = th) :
    merge_ini_content S (some T) pe = (th ++ ['\n']) ++ lstrip sb := by
  simp only [merge_ini_content, hS, hT]
  rw [rstrip_append_newline, hclean]
  simp

/-- Witness for C1's amended theorem at a concrete clean-header input. -/
theorem merge_preserves_clean_header_witness :
    merge_ini_content ("[Global]\nnew".toList) (some ("A\n[Global]\nold".toList)) true
      = (("A".toList) ++ ['\n']) ++ lstrip ("[Global]\nnew".toList) :=
  merge_preserves_clean_header ("[Global]\nnew".toList) ("A\n[Global]\nold".toList)
    ("A".toList) ("[Global]\nold".toList) [] ("[Global]\nnew".toList) true
    (by decide) (by decide) (by decide)

/-- Claim C2: `_merge_ini_content` returns the same output for both
values of `preserve_excluded` on every source and target — the flag is
accepted but never consulted, so excluded fields receive no special
treatment in either mode. -/
theorem merge_ignores_preserve_excluded (S : List Char) (T : Option (List Char)) :
    merge_ini_content S T true = merge_ini_content S T false := rfl

/-- Claim C3, counterexample: with source `"[Global]\nx"` (which
contains the marker) and the marker-free target `"abc\n\n"`, merging a
second time differs from merging once — the first merge produces
`"abc\n\n[Global]\nx"`, the second collapses the blank line to
`"abc\n[Global]\nx"` — so the merge is not idempotent for arbitrary
targets. -/
theorem merge_not_idempotent_cex :
    (splitAtMarker ("[Global]\nx".toList)).isSome = true ∧
    merge_ini_content ("[Global]\nx".toList)
        (some (merge_ini_content ("[Global]\nx".toList) (some ("abc\n\n".toList)) true)) true
      ≠ merge_ini_content ("[Global]\nx".toList) (some ("abc\n\n".toList)) true := by
  decide

/-- Claim C3 (amended): the merge is idempotent for every source
containing the marker and every target that also contains the marker;
for targets lacking the marker (or absent targets) a second merge can
differ, by whitespace normalization at the appended seam. -/
theorem merge_idem_of_marked (S T : List Char) (pe pe2 : Bool)
    (hS : (splitAtMarker S).isSome = true) (hT : (splitAtMarker T).isSome = true) :
    merge_ini_content S (some (merge_ini_content S (some T) pe)) pe2
      = merge_ini_content S (some T) pe := by
  rw [Option.isSome_iff_exists] at hS hT
  obtain ⟨⟨sh, sb⟩, hS2⟩ := hS
  obtain ⟨⟨th, tb⟩, hT2⟩ := hT
  exact merge_idem_aux hS2 hT2

/-- Witness for C3's amended theorem at a concrete marked target. -/
theorem merge_idem_of_marked_witness :
    merge_ini_content ("[Global]\nx".toList)
        (some (merge_ini_content ("[Global]\nx".toList)
          (some ("B\n[Global]\nold".toList)) true)) true
      = merge_ini_content ("[Global]\nx".toList) (some ("B\n[Global]\nold".toList)) true :=
  merge_idem_of_marked ("[Global]\nx".toList) ("B\n[Global]\nold".toList) true true
    (by decide) (by decide)

/-- Claim C4: while the pause flag exists (and the source exists, with a
readable modification time `m`), a poll tick performs no target write
(`_sync_files` is not invoked), records `m` into `self._last_mtime`
whatever its previous value and whatever the game state, and marks the
session not idle. -/
theorem pause_tick_records_mtime_no_write (s : SyncState) (env : PollEnv) (m : Nat)
    (hw : env.work_exists = true) (hp : env.pause_exists = true)
    (hm : env.stat_mtime = some m) :
    (poll s env).2 = none ∧ (poll s env).1.last_mtime = some m ∧
      (poll s env).1.inactive = false := by
  cases hg : (check_game_state s env.game_running env.now).2 <;>
    simp [poll, hw, hp, hm, PRE_GAME_SYNC_ENABLED, hg]

/-- Witness for C4 at a concrete paused environment. -/
theorem pause_tick_records_mtime_no_write_witness :
    (poll initState ⟨true, some 5, true, false, 2, false⟩).2 = none ∧
    (poll initState ⟨true, some 5, true, false, 2, false⟩).1.last_mtime = some 5 ∧
    (poll initState ⟨true, some 5, true, false, 2, false⟩).1.inactive = false :=
  pause_tick_records_mtime_no_write initState ⟨true, some 5, true, false, 2, false⟩ 5
    rfl rfl rfl

/-- Claim C5, counterexample: when the false→true presence transition
happens at tick time `0` (initial probe already done, game not running
at it), the tick at time `GAME_START_DELAY_SECONDS` — for which
`now - t0 = 10 ≥ 10` — still returns `false`: the Python truthiness test
`if self._game_start_time:` treats the recorded start time `0.0` as
absent, so sync never arms. The claim, which demands `true` there, fails
at this input. -/
theorem grace_delay_zero_start_cex :
    ({ initState with initial_check_done := true } : SyncState).game_running = false ∧
    (check_game_state { initState with initial_check_done := true } true 0).2 = false ∧
    (check_game_state (check_game_state { initState with initial_check_done := true } true 0).1
        true GAME_START_DELAY_SECONDS).2 = false := by
  decide

/-- Claim C5 (amended): for a presence transition at a nonzero tick time
`t0` (initial probe done, game previously not running), the transition
tick returns `false`, and every later tick (times nondecreasing, game
present throughout) returns exactly the value of
`now - t0 ≥ GAME_START_DELAY_SECONDS`: `false` strictly inside the
10-second grace window, `true` from the first tick at or past it. -/
theorem game_grace_delay (s0 : SyncState) (t0 : Nat) (ts : List Nat)
    (h0 : s0.initial_check_done = true) (h1 : s0.game_running = false)
    (ht : t0 ≠ 0) (hs : ts.Pairwise (· ≤ ·)) :
    (check_game_state s0 true t0).2 = false ∧
    runTicks (check_game_state s0 true t0).1 ts
      = ts.map fun n => decide (GAME_START_DELAY_SECONDS ≤ n - t0) := by
  have hc : check_game_state s0 true t0 =
      ({ s0 with game_running := true, game_start_time := some t0,
                 sync_enabled_after_delay := false }, false) := by
    unfold check_game_state check_rest
    simp [h0, h1]
  rw [hc]
  exact ⟨rfl, runTicks_waiting (by simp) (by simp) (by simp [h0]) (by simp) ht ts hs⟩

/-- Witness for C5's amended theorem: transition at time 5, ticks at
14, 15, 16 with the game present. -/
theorem game_grace_delay_witness :
    (check_game_state { initState with initial_check_done := true } true 5).2 = false ∧
    runTicks (check_game_state { initState with initial_check_done := true } true 5).1
        [14, 15, 16]
      = [14, 15, 16].map fun n => decide (GAME_START_DELAY_SECONDS ≤ n - 5) :=
  game_grace_delay { initState with initial_check_done := true } 5 [14, 15, 16]
    (by decide) (by decide) (by decide) (by decide)

/-- Claim C6: `_is_game_running` returns `True` whenever process
enumeration is unavailable or raises (fails open toward "assume
running"), returns `True` when a process with the exact name
`GAME_PROCESS_NAME` is present, and returns `False` only when the
enumeration succeeded and no accessible process matched. -/
theorem detector_fails_open :
    is_game_running none = true ∧
    (∀ procs : List ProcEntry, ProcEntry.ok GAME_PROCESS_NAME ∈ procs →
      is_game_running (some procs) = true) ∧
    (∀ e : Option (List ProcEntry), is_game_running e = false →
      ∃ procs, e = some procs ∧ ∀ nm, ProcEntry.ok nm ∈ procs → nm ≠ GAME_PROCESS_NAME) := by
  refine ⟨rfl, ?_, ?_⟩
  · intro procs hmem
    unfold is_game_running
    rw [List.any_eq_true]
    exact ⟨ProcEntry.ok GAME_PROCESS_NAME, hmem, by simp⟩
  · intro e he
    cases e with
    | none => simp [is_game_running] at he
    | some procs =>
      refine ⟨procs, rfl, ?_⟩
      intro nm hmem heq
      subst heq
      have htrue : is_game_running (some procs) = true := by
        unfold is_game_running
        rw [List.any_eq_true]
        exact ⟨ProcEntry.ok GAME_PROCESS_NAME, hmem, by simp⟩
      rw [he] at htrue
      exact absurd htrue (by decide)

/-- Witness for C6: a table containing the game process makes the
detector return `True`. -/
theorem detector_fails_open_witness :
    is_game_running (some [ProcEntry.ok GAME_PROCESS_NAME]) = true :=
  detector_fails_open.2.1 [ProcEntry.ok GAME_PROCESS_NAME] (List.mem_singleton_self _)

/-- Claim C7: a source without the marker performs no merge — the
result is the existing target text unchanged when the target exists,
and the empty string when it does not; an existing target's content is
never destroyed. -/
theorem merge_no_source_marker_noop (S : List Char) (T : Option (List Char)) (pe : Bool)
    (h : splitAtMarker S = none) :
    merge_ini_content S T pe = T.getD [] := by
  simp only [merge_ini_content, h]
  cases T <;> rfl

/-- Witness for C7 at a concrete marker-free source. -/
theorem merge_no_source_marker_noop_witness :
    merge_ini_content ("abc".toList) (some ("keep\nme".toList)) true
      = (some ("keep\nme".toList)).getD [] :=
  merge_no_source_marker_noop ("abc".toList) (some ("keep\nme".toList)) true (by decide)

/-- Claim C8: if the very first presence check of the session observes
the game already running, that very tick returns `True` with sync armed
immediately — no 10-second grace delay is applied. -/
theorem startup_already_running_immediate (s : SyncState) (now : Nat)
    (h : s.initial_check_done = false) :
    check_game_state s true now =
      ({ s with initial_check_done := true, game_running := true,
                sync_enabled_after_delay := true }, true) := by
  unfold check_game_state
  simp [h]

/-- Witness for C8 from the freshly constructed state. -/
theorem startup_already_running_immediate_witness :
    check_game_state initState true 3 =
      ({ initState with initial_check_done := true, game_running := true,
                        sync_enabled_after_delay := true }, true) :=
  startup_already_running_immediate initState 3 rfl

/-- Claim C9, counterexample: a tick that detects a source modification
(mtime 7) while every target write fails (`writes_fail = true`; the
exceptions are swallowed inside `_sync_files` and never reach the
scheduler state) is NOT retried: the very next tick with the unchanged
mtime performs no sync attempt, because `self._last_mtime` was already
advanced to 7 before the writes. -/
theorem failed_writes_not_retried_cex :
    (poll initState ⟨true, some 7, false, true, 0, true⟩).2 = some true ∧
    (poll (poll initState ⟨true, some 7, false, true, 0, true⟩).1
        ⟨true, some 7, false, true, 0, true⟩).2 = none := by
  decide

/-- Claim C9 (amended): errors are swallowed, and a failed source-stat
is retried — a tick whose `stat` raises clears `lastSourceModifiedTime`
and goes idle, so the next successful tick will sync — but failed target
writes are not retried: once a tick has observed mtime `m`, any tick
still observing `m` performs no sync attempt, regardless of whether the
previous writes succeeded (write outcomes never influence the state). -/
theorem poll_error_recovery :
    (∀ (s : SyncState) (env : PollEnv), env.work_exists = true →
      env.pause_exists = false → env.stat_mtime = none →
      (poll s env).2 = none ∧ (poll s env).1.last_mtime = none ∧
        (poll s env).1.inactive = true) ∧
    (∀ (s : SyncState) (env : PollEnv) (m : Nat), env.work_exists = true →
      env.pause_exists = false → env.stat_mtime = some m → s.last_mtime = some m →
      (poll s env).2 = none ∧ (poll s env).1.last_mtime = some m) := by
  constructor
  · intro s env hw hp hm
    cases hg : (check_game_state s env.game_running env.now).2 <;>
      simp [poll, hw, hp, hm, PRE_GAME_SYNC_ENABLED, hg]
  · intro s env m hw hp hm hl
    have hpres := check_game_state_preserves_last_mtime s env.game_running env.now
    cases hg : (check_game_state s env.game_running env.now).2 <;>
      simp [poll, hw, hp, hm, PRE_GAME_SYNC_ENABLED, hg, hpres, hl]

/-- Witness for C9's amended theorem at concrete environments. -/
theorem poll_error_recovery_witness :
    (poll initState ⟨true, none, false, false, 1, false⟩).2 = none ∧
    (poll { initState with last_mtime := some 4 } ⟨true, some 4, false, false, 1, true⟩).2
      = none :=
  ⟨(poll_error_recovery.1 initState ⟨true, none, false, false, 1, false⟩ rfl rfl rfl).1,
   (poll_error_recovery.2 { initState with last_mtime := some 4 }
      ⟨true, some 4, false, false, 1, true⟩ 4 rfl rfl rfl rfl).1⟩

/-- Claim C10: `force_sync_now` leaves the scheduler's session state
untouched — `self._last_mtime`, `self._inactive` and all game-detection
fields keep their values — so a forced sync does not count as an
observation of the source's modification time, and a subsequent poll
behaves exactly as it would have without the forced sync. -/
theorem force_sync_preserves_session_state (s : SyncState) (env env2 : PollEnv) :
    (force_sync_now s env).1 = s ∧ poll (force_sync_now s env).1 env2 = poll s env2 := by
  unfold force_sync_now
  split <;> exact ⟨rfl, rfl⟩

end LiveSync
